import Mathlib

/-!
Shallow embedding of `sendmail.py` (grandchild/pysendmail): the `MailSender`
and `Mail` classes and the `Mail.send` retry loop, together with proofs of
the specified properties of construction, header rendering and delivery.

Side effects of `Mail.send` (opening a connection, the `sendmail` transport
call, `print` and `time.sleep`) are recorded as an explicit trace of `Event`s.
The outcome of each delivery attempt (the body of the `try` block) is an
oracle `Nat → AttemptOutcome` giving, per zero-based attempt index, whether
the attempt succeeds, raises `smtplib.SMTPAuthenticationError`, or raises
some other `OSError`.
-/

namespace Sendmail

/-- Class `MailSender`: login user, password, SMTP server, optional display
From (`from_`) and optional `reply_to`. The two optionals default to `None`,
modelled as `Option.none`. -/
structure MailSender where
  user : String
  password : String
  server : String
  from_ : Option String
  reply_to : Option String
deriving DecidableEq

/-- A Python argument that may be `None`, a single string, or a list of
strings (the duck-typed `to` / `bcc` parameters of `Mail.__init__`). -/
inductive PyStrOrList where
  | none
  | str (s : String)
  | list (l : List String)
deriving DecidableEq

/-- Python truthiness of an `Optional[str]` value: `None` and `""` are falsy,
every other string is truthy. -/
def pyTruthy : Option String → Bool
  | Option.none => false
  | Option.some s => s != ""

/-- Python `x or y` on an `Optional[str]` `x` and a `str` `y`: yields `x`
when truthy, else `y` (used for `self.sender.from_ or self.sender.user`). -/
def pyOrStr (x : Option String) (y : String) : String :=
  match x with
  | Option.none => y
  | Option.some s => if s == "" then y else s

/-- Normalization of the `bcc` argument in `Mail.__init__`: `None` becomes
`[]`, a string `s` becomes `[s]`, a list is taken as is. -/
def normalizeBcc : PyStrOrList → List String
  | PyStrOrList.none => []
  | PyStrOrList.str s => [s]
  | PyStrOrList.list l => l

/-- The state of a constructed `Mail` object: the sender, the normalized
recipient lists, the attachment map (filename, raw bytes), the body text and
root MIME subtype, and the header values set on `self.msg` during
`__init__` (the Date header, a wall-clock timestamp, is not modelled). -/
structure Mail where
  sender : MailSender
  «to» : List String
  bcc : List String
  attachments : List (String × List Nat)
  body : String
  rootSubtype : String
  msgSubject : String
  msgTo : String
  msgFrom : String
  msgReplyTo : Option String
deriving DecidableEq

/-- The Reply-To header value set in `Mail.__init__`:
`reply_to if reply_to else self.sender.reply_to if self.sender.reply_to
else self.sender.from_` (Python truthiness at each step). -/
def replyToVal (sender : MailSender) (reply_to : Option String) : Option String :=
  if pyTruthy reply_to then reply_to
  else if pyTruthy sender.reply_to then sender.reply_to
  else sender.from_

/-- The To header value set in `Mail.__init__`:
`",".join(self.to) if custom_to_header is None else custom_to_header`
(an `is None` test, not truthiness). -/
def toHeaderVal (toL : List String) (custom_to_header : Option String) : String :=
  match custom_to_header with
  | Option.none => String.intercalate "," toL
  | Option.some c => c

/-- Builds the `Mail` record once `to` has been normalized to a list
(the straight-line remainder of `Mail.__init__`). -/
def buildMail (sender : MailSender) (toL : List String) (subject text : String)
    (attachments : List (String × List Nat)) (bccL : List String)
    (reply_to custom_to_header : Option String) (root_msg_mime_subtype : String) :
    Mail :=
  { sender := sender
    «to» := toL
    bcc := bccL
    attachments := attachments
    body := text
    rootSubtype := root_msg_mime_subtype
    msgSubject := subject
    msgTo := toHeaderVal toL custom_to_header
    msgFrom := pyOrStr sender.from_ sender.user
    msgReplyTo := replyToVal sender reply_to }

/-- `Mail.__init__`: raises `ValueError("Mail: No recipient given")` when
`to is None`; otherwise normalizes `to` (string to singleton list) and builds
the message. Attachment processing iterates the mapping and never fails, so
no other branch raises. -/
def mkMail (sender : MailSender) («to» : PyStrOrList) (subject text : String)
    (attachments : List (String × List Nat)) (bcc : PyStrOrList)
    (reply_to custom_to_header : Option String) (root_msg_mime_subtype : String) :
    Except String Mail :=
  match «to» with
  | PyStrOrList.none => Except.error "Mail: No recipient given"
  | PyStrOrList.str s =>
      Except.ok (buildMail sender [s] subject text attachments (normalizeBcc bcc)
        reply_to custom_to_header root_msg_mime_subtype)
  | PyStrOrList.list l =>
      Except.ok (buildMail sender l subject text attachments (normalizeBcc bcc)
        reply_to custom_to_header root_msg_mime_subtype)

/-- Observable side effects of `Mail.send`, in order of occurrence. -/
inductive Event where
  /-- The attempt begins: `smtplib.SMTP(self.sender.server)` is entered. -/
  | attemptStart (server : String)
  /-- `smtpserver.sendmail(envelopeFrom, rcpts, msg)` completed. -/
  | sendmailStep (envelopeFrom : String) (rcpts : List String)
  /-- `print("Failed sending: Authentication Error")`. -/
  | printAuthFail
  /-- The `OSError` print: the fields interpolated into
  `"Failed sending to <...> ...: ... (waiting ...s)"` — `self.to`, the
  ordinal wording, the error text, and the wait in seconds. -/
  | printOsFail (toList : List String) (ordinalStr : String) (err : String)
      (waitSecs : Nat)
  /-- `print("No mail adresses given, no mails sent.")` (sic). -/
  | printNoMail
  /-- `time.sleep(secs)`. -/
  | sleep (secs : Nat)
deriving DecidableEq

/-- Outcome of one delivery attempt: the `try` body either completes, raises
`smtplib.SMTPAuthenticationError`, or raises some other `OSError` carrying
message `err`. (Since Python 3.4 every `smtplib` exception is an `OSError`,
so these cases cover everything the body raises.) -/
inductive AttemptOutcome where
  | success
  | authError
  | osError (err : String)
deriving DecidableEq

/-- The exception a failed attempt raises. -/
inductive SmtpError where
  | authFailure
  | transport (err : String)
deriving DecidableEq

/-- The ordinal wording for a failed attempt:
`["once", "twice", "N times"][min(tries, 2)]` with `N = tries + 1` — the
wording clamps to the third form for every `tries >= 2`. -/
def ordinal (tries : Nat) : String :=
  if tries == 0 then "once"
  else if tries == 1 then "twice"
  else toString (tries + 1) ++ " times"

/-- One pass of the `try` body: the events it performs and its result —
`Except.ok` on completion, `Except.error` for the raised exception. A failing
attempt still performed its `attemptStart`. -/
def attemptBody (sender : MailSender) (rcpts : List String) :
    AttemptOutcome → List Event × Except SmtpError Unit
  | AttemptOutcome.success =>
      ([Event.attemptStart sender.server, Event.sendmailStep sender.user rcpts],
        Except.ok ())
  | AttemptOutcome.authError =>
      ([Event.attemptStart sender.server], Except.error SmtpError.authFailure)
  | AttemptOutcome.osError err =>
      ([Event.attemptStart sender.server], Except.error (SmtpError.transport err))

/-- The two `except` clauses of `Mail.send`. Given the raised error and the
current zero-based attempt index `tries`, returns the events the matching
clause performs (`some`) or `none` when no clause matches (the exception
would propagate). `SMTPAuthenticationError` hits the first clause, every
other `OSError` the second, so no `SmtpError` is left uncaught. -/
def exceptClauses (selfTo : List String) (tries : Nat) :
    SmtpError → Option (List Event)
  | SmtpError.authFailure =>
      Option.some [Event.printAuthFail, Event.sleep tries]
  | SmtpError.transport err =>
      Option.some [Event.printOsFail selfTo (ordinal tries) err (tries ^ 2),
        Event.sleep (tries ^ 2)]

/-- The `while not success and tries < retries` loop of `Mail.send`, with the
guard embedded as fuel `retries - tries`: `fuel = 0` means the budget is
exhausted (return the current `success = false`), otherwise run one attempt.
`selfTo` is `self.to` (named in the `OSError` print), `rcpts` is
`self.to + self.bcc` (the delivery list). -/
def sendLoopFuel (sender : MailSender) (selfTo rcpts : List String)
    (o : Nat → AttemptOutcome) : Nat → Nat → Bool × List Event
  | _, 0 => (false, [])
  | tries, fuel + 1 =>
    match o tries with
    | AttemptOutcome.success =>
        (true, [Event.attemptStart sender.server,
          Event.sendmailStep sender.user rcpts])
    | AttemptOutcome.authError =>
        let rest := sendLoopFuel sender selfTo rcpts o (tries + 1) fuel
        (rest.1, Event.attemptStart sender.server :: Event.printAuthFail ::
          Event.sleep tries :: rest.2)
    | AttemptOutcome.osError err =>
        let rest := sendLoopFuel sender selfTo rcpts o (tries + 1) fuel
        (rest.1, Event.attemptStart sender.server ::
          Event.printOsFail selfTo (ordinal tries) err (tries ^ 2) ::
          Event.sleep (tries ^ 2) :: rest.2)

/-- The same loop in exception-passing style: each attempt's raised error is
dispatched to `exceptClauses`; an unmatched error (never the case) would
propagate as `Except.error`. This version makes "no exception escapes
`send`" a statement rather than a typing accident. -/
def sendLoopE (sender : MailSender) (selfTo rcpts : List String)
    (o : Nat → AttemptOutcome) : Nat → Nat → Except SmtpError (Bool × List Event)
  | _, 0 => Except.ok (false, [])
  | tries, fuel + 1 =>
    let att := attemptBody sender rcpts (o tries)
    match att.2 with
    | Except.ok _ => Except.ok (true, att.1)
    | Except.error e =>
      match exceptClauses selfTo tries e with
      | Option.some evs =>
          (sendLoopE sender selfTo rcpts o (tries + 1) fuel).map
            (fun p => (p.1, att.1 ++ evs ++ p.2))
      | Option.none => Except.error e

/-- `Mail.send(retries)`: with `to = self.to + self.bcc`, if `to` is nonempty
run the retry loop from `tries = 0` and return its `success` flag; otherwise
print the no-mail notice and return `True`. (Python's default is
`retries=3`.) -/
def Mail.send (m : Mail) (o : Nat → AttemptOutcome) (retries : Nat) :
    Bool × List Event :=
  let rcpts := m.«to» ++ m.bcc
  if rcpts = [] then (true, [Event.printNoMail])
  else sendLoopFuel m.sender m.«to» rcpts o 0 retries

/-- `Mail.send` in exception-passing style (see `sendLoopE`). -/
def Mail.sendE (m : Mail) (o : Nat → AttemptOutcome) (retries : Nat) :
    Except SmtpError (Bool × List Event) :=
  let rcpts := m.«to» ++ m.bcc
  if rcpts = [] then Except.ok (true, [Event.printNoMail])
  else sendLoopE m.sender m.«to» rcpts o 0 retries

/-- Whether an event opens a delivery attempt. -/
def isStart : Event → Bool
  | Event.attemptStart _ => true
  | _ => false

/-- Number of delivery attempts recorded in a trace. -/
def attemptCount (evs : List Event) : Nat :=
  evs.countP (fun e => isStart e)

/-- Whether a construction result is a successfully built `Mail`. -/
def ctorOk : Except String Mail → Bool
  | Except.ok _ => true
  | Except.error _ => false

/-! Concrete sample data used by witnesses and counterexamples. -/

/-- A concrete sender. -/
def sampleSender : MailSender :=
  { user := "me@example.com"
    password := "s3cr3t"
    server := "smtp.example.com"
    from_ := Option.some "Me <me@example.com>"
    reply_to := Option.none }

/-- A concrete mail with one To recipient and one BCC recipient. -/
def sampleMail : Mail :=
  buildMail sampleSender ["recipient@example.com"] "subject" "hello" []
    ["bcc@example.com"] Option.none Option.none "mixed"

/-- A concrete mail whose recipient lists are both empty. -/
def emptyMail : Mail :=
  buildMail sampleSender [] "subject" "hello" [] [] Option.none Option.none "mixed"

/-- Oracle: every attempt raises `SMTPAuthenticationError`. -/
def sampleAuthO : Nat → AttemptOutcome := fun _ => AttemptOutcome.authError

/-- Oracle: every attempt succeeds. -/
def sampleSuccO : Nat → AttemptOutcome := fun _ => AttemptOutcome.success

/-- Oracle: the first attempt raises an `OSError`, later attempts succeed. -/
def sampleOsO : Nat → AttemptOutcome := fun n =>
  if n == 0 then AttemptOutcome.osError "connection refused"
  else AttemptOutcome.success

/-- A sender whose `reply_to` is set to `"a"`. -/
def senderReplyA : MailSender :=
  { user := "me@example.com"
    password := "s3cr3t"
    server := "smtp.example.com"
    from_ := Option.some "Me <me@example.com>"
    reply_to := Option.some "a" }

/-- Mail from `senderReplyA` with message-level `reply_to = "b"`. -/
def mailReplyB : Mail :=
  buildMail senderReplyA ["x@example.com"] "" "" [] []
    (Option.some "b") Option.none "mixed"

/-- Mail with two To recipients and a custom To header. -/
def mailCustomTo : Mail :=
  buildMail sampleSender ["x@example.com", "y@example.com"] "" "" [] []
    Option.none (Option.some "Team <team@example.com>") "mixed"

/-! ## Lemmas about the retry loop -/

theorem sendLoopFuel_true_iff (sender : MailSender) (selfTo rcpts : List String)
    (o : Nat → AttemptOutcome) :
    ∀ fuel tries, (sendLoopFuel sender selfTo rcpts o tries fuel).1 = true ↔
      ∃ k, k < fuel ∧ o (tries + k) = AttemptOutcome.success := by
  intro fuel
  induction fuel with
  | zero =>
    intro tries
    simp [sendLoopFuel]
  | succ n ih =>
    intro tries
    cases ho : o tries with
    | success =>
      simp only [sendLoopFuel, ho]
      constructor
      · intro _
        exact ⟨0, Nat.succ_pos n, by simpa using ho⟩
      · intro _
        trivial
    | authError =>
      simp only [sendLoopFuel, ho]
      rw [ih (tries + 1)]
      constructor
      · rintro ⟨k, hk, hks⟩
        refine ⟨k + 1, by omega, ?_⟩
        rw [show tries + (k + 1) = tries + 1 + k by omega]
        exact hks
      · rintro ⟨k, hk, hks⟩
        cases k with
        | zero =>
          rw [Nat.add_zero, ho] at hks
          cases hks
        | succ k0 =>
          refine ⟨k0, by omega, ?_⟩
          rw [show tries + 1 + k0 = tries + (k0 + 1) by omega]
          exact hks
    | osError err =>
      simp only [sendLoopFuel, ho]
      rw [ih (tries + 1)]
      constructor
      · rintro ⟨k, hk, hks⟩
        refine ⟨k + 1, by omega, ?_⟩
        rw [show tries + (k + 1) = tries + 1 + k by omega]
        exact hks
      · rintro ⟨k, hk, hks⟩
        cases k with
        | zero =>
          rw [Nat.add_zero, ho] at hks
          cases hks
        | succ k0 =>
          refine ⟨k0, by omega, ?_⟩
          rw [show tries + 1 + k0 = tries + (k0 + 1) by omega]
          exact hks

theorem sendLoopFuel_attemptCount_le (sender : MailSender) (selfTo rcpts : List String)
    (o : Nat → AttemptOutcome) :
    ∀ fuel tries, attemptCount (sendLoopFuel sender selfTo rcpts o tries fuel).2 ≤ fuel := by
  intro fuel
  induction fuel with
  | zero =>
    intro tries
    simp [sendLoopFuel, attemptCount]
  | succ n ih =>
    intro tries
    cases ho : o tries with
    | success =>
      simp [sendLoopFuel, ho, attemptCount, isStart, List.countP_cons]
    | authError =>
      have h := ih (tries + 1)
      simp only [sendLoopFuel, ho]
      simp only [attemptCount, List.countP_cons, isStart] at h ⊢
      simp
      omega
    | osError err =>
      have h := ih (tries + 1)
      simp only [sendLoopFuel, ho]
      simp only [attemptCount, List.countP_cons, isStart] at h ⊢
      simp
      omega

theorem sendLoopFuel_first_success (sender : MailSender) (selfTo rcpts : List String)
    (o : Nat → AttemptOutcome) :
    ∀ fuel tries k, k < fuel → o (tries + k) = AttemptOutcome.success →
      (∀ j, j < k → o (tries + j) ≠ AttemptOutcome.success) →
      attemptCount (sendLoopFuel sender selfTo rcpts o tries fuel).2 = k + 1 := by
  intro fuel
  induction fuel with
  | zero =>
    intro tries k hk
    omega
  | succ n ih =>
    intro tries k hk hsucc hfail
    cases k with
    | zero =>
      rw [Nat.add_zero] at hsucc
      simp [sendLoopFuel, hsucc, attemptCount, isStart, List.countP_cons]
    | succ k0 =>
      have h0 : o tries ≠ AttemptOutcome.success := by
        have h1 := hfail 0 (Nat.succ_pos k0)
        simpa using h1
      cases ho : o tries with
      | success => exact absurd ho h0
      | authError =>
        have hrec := ih (tries + 1) k0 (by omega)
          (by rw [show tries + 1 + k0 = tries + (k0 + 1) by omega]; exact hsucc)
          (fun j hj => by
            rw [show tries + 1 + j = tries + (j + 1) by omega]
            exact hfail (j + 1) (by omega))
        simp only [sendLoopFuel, ho]
        simp only [attemptCount, List.countP_cons, isStart] at hrec ⊢
        simp at hrec ⊢
        omega
      | osError err =>
        have hrec := ih (tries + 1) k0 (by omega)
          (by rw [show tries + 1 + k0 = tries + (k0 + 1) by omega]; exact hsucc)
          (fun j hj => by
            rw [show tries + 1 + j = tries + (j + 1) by omega]
            exact hfail (j + 1) (by omega))
        simp only [sendLoopFuel, ho]
        simp only [attemptCount, List.countP_cons, isStart] at hrec ⊢
        simp at hrec ⊢
        omega

theorem sendLoopFuel_attemptCount_ge (sender : MailSender) (selfTo rcpts : List String)
    (o : Nat → AttemptOutcome) :
    ∀ fuel tries k, k < fuel →
      (∀ j, j < k → o (tries + j) ≠ AttemptOutcome.success) →
      k + 1 ≤ attemptCount (sendLoopFuel sender selfTo rcpts o tries fuel).2 := by
  intro fuel
  induction fuel with
  | zero =>
    intro tries k hk
    omega
  | succ n ih =>
    intro tries k hk hfail
    cases k with
    | zero =>
      cases ho : o tries <;>
        simp [sendLoopFuel, ho, attemptCount, isStart, List.countP_cons]
    | succ k0 =>
      have h0 : o tries ≠ AttemptOutcome.success := by
        have h1 := hfail 0 (Nat.succ_pos k0)
        simpa using h1
      cases ho : o tries with
      | success => exact absurd ho h0
      | authError =>
        have hrec := ih (tries + 1) k0
          (by omega)
          (fun j hj => by
            rw [show tries + 1 + j = tries + (j + 1) by omega]
            exact hfail (j + 1) (by omega))
        simp only [sendLoopFuel, ho]
        simp only [attemptCount, List.countP_cons, isStart] at hrec ⊢
        simp at hrec ⊢
        omega
      | osError err =>
        have hrec := ih (tries + 1) k0
          (by omega)
          (fun j hj => by
            rw [show tries + 1 + j = tries + (j + 1) by omega]
            exact hfail (j + 1) (by omega))
        simp only [sendLoopFuel, ho]
        simp only [attemptCount, List.countP_cons, isStart] at hrec ⊢
        simp at hrec ⊢
        omega

theorem sendLoopFuel_osFail_infix (sender : MailSender) (selfTo rcpts : List String)
    (o : Nat → AttemptOutcome) :
    ∀ fuel tries k err, k < fuel →
      (∀ j, j < k → o (tries + j) ≠ AttemptOutcome.success) →
      o (tries + k) = AttemptOutcome.osError err →
      List.IsInfix
        [Event.attemptStart sender.server,
          Event.printOsFail selfTo (ordinal (tries + k)) err ((tries + k) ^ 2),
          Event.sleep ((tries + k) ^ 2)]
        (sendLoopFuel sender selfTo rcpts o tries fuel).2 := by
  intro fuel
  induction fuel with
  | zero =>
    intro tries k err hk
    omega
  | succ n ih =>
    intro tries k err hk hfail ho
    cases k with
    | zero =>
      rw [Nat.add_zero] at ho ⊢
      simp only [sendLoopFuel, ho]
      exact ⟨[], (sendLoopFuel sender selfTo rcpts o (tries + 1) n).2, rfl⟩
    | succ k0 =>
      have h0 : o tries ≠ AttemptOutcome.success := by
        have h1 := hfail 0 (Nat.succ_pos k0)
        simpa using h1
      have hsh : tries + 1 + k0 = tries + (k0 + 1) := by omega
      have hrec := ih (tries + 1) k0 err (by omega)
        (fun j hj => by
          rw [show tries + 1 + j = tries + (j + 1) by omega]
          exact hfail (j + 1) (by omega))
        (by rw [hsh]; exact ho)
      rw [hsh] at hrec
      cases hh : o tries with
      | success => exact absurd hh h0
      | authError =>
        simp only [sendLoopFuel, hh]
        obtain ⟨s, t, hst⟩ := hrec
        exact ⟨Event.attemptStart sender.server :: Event.printAuthFail ::
          Event.sleep tries :: s, t, by simp [hst]⟩
      | osError e2 =>
        simp only [sendLoopFuel, hh]
        obtain ⟨s, t, hst⟩ := hrec
        exact ⟨Event.attemptStart sender.server ::
          Event.printOsFail selfTo (ordinal tries) e2 (tries ^ 2) ::
          Event.sleep (tries ^ 2) :: s, t, by simp [hst]⟩

theorem sendLoopFuel_authFail_infix (sender : MailSender) (selfTo rcpts : List String)
    (o : Nat → AttemptOutcome) :
    ∀ fuel tries k, k < fuel →
      (∀ j, j < k → o (tries + j) ≠ AttemptOutcome.success) →
      o (tries + k) = AttemptOutcome.authError →
      List.IsInfix
        [Event.attemptStart sender.server, Event.printAuthFail,
          Event.sleep (tries + k)]
        (sendLoopFuel sender selfTo rcpts o tries fuel).2 := by
  intro fuel
  induction fuel with
  | zero =>
    intro tries k hk
    omega
  | succ n ih =>
    intro tries k hk hfail ho
    cases k with
    | zero =>
      rw [Nat.add_zero] at ho ⊢
      simp only [sendLoopFuel, ho]
      exact ⟨[], (sendLoopFuel sender selfTo rcpts o (tries + 1) n).2, rfl⟩
    | succ k0 =>
      have h0 : o tries ≠ AttemptOutcome.success := by
        have h1 := hfail 0 (Nat.succ_pos k0)
        simpa using h1
      have hsh : tries + 1 + k0 = tries + (k0 + 1) := by omega
      have hrec := ih (tries + 1) k0 (by omega)
        (fun j hj => by
          rw [show tries + 1 + j = tries + (j + 1) by omega]
          exact hfail (j + 1) (by omega))
        (by rw [hsh]; exact ho)
      rw [hsh] at hrec
      cases hh : o tries with
      | success => exact absurd hh h0
      | authError =>
        simp only [sendLoopFuel, hh]
        obtain ⟨s, t, hst⟩ := hrec
        exact ⟨Event.attemptStart sender.server :: Event.printAuthFail ::
          Event.sleep tries :: s, t, by simp [hst]⟩
      | osError e2 =>
        simp only [sendLoopFuel, hh]
        obtain ⟨s, t, hst⟩ := hrec
        exact ⟨Event.attemptStart sender.server ::
          Event.printOsFail selfTo (ordinal tries) e2 (tries ^ 2) ::
          Event.sleep (tries ^ 2) :: s, t, by simp [hst]⟩

theorem sendLoopFuel_sendmailStep_args (sender : MailSender) (selfTo rcpts : List String)
    (o : Nat → AttemptOutcome) :
    ∀ fuel tries f r,
      Event.sendmailStep f r ∈ (sendLoopFuel sender selfTo rcpts o tries fuel).2 →
      f = sender.user ∧ r = rcpts := by
  intro fuel
  induction fuel with
  | zero =>
    intro tries f r hmem
    simp [sendLoopFuel] at hmem
  | succ n ih =>
    intro tries f r hmem
    cases ho : o tries with
    | success =>
      simp only [sendLoopFuel, ho] at hmem
      simp at hmem
      exact hmem
    | authError =>
      simp only [sendLoopFuel, ho] at hmem
      simp at hmem
      exact ih (tries + 1) f r hmem
    | osError err =>
      simp only [sendLoopFuel, ho] at hmem
      simp at hmem
      exact ih (tries + 1) f r hmem

theorem sendLoopE_eq_ok (sender : MailSender) (selfTo rcpts : List String)
    (o : Nat → AttemptOutcome) :
    ∀ fuel tries, sendLoopE sender selfTo rcpts o tries fuel =
      Except.ok (sendLoopFuel sender selfTo rcpts o tries fuel) := by
  intro fuel
  induction fuel with
  | zero =>
    intro tries
    simp [sendLoopE, sendLoopFuel]
  | succ n ih =>
    intro tries
    cases ho : o tries with
    | success =>
      simp [sendLoopE, sendLoopFuel, attemptBody, ho]
    | authError =>
      simp [sendLoopE, sendLoopFuel, attemptBody, exceptClauses, ho,
        ih (tries + 1), Except.map]
    | osError err =>
      simp [sendLoopE, sendLoopFuel, attemptBody, exceptClauses, ho,
        ih (tries + 1), Except.map]

theorem Mail.send_of_ne (m : Mail) (o : Nat → AttemptOutcome) (retries : Nat)
    (h : m.«to» ++ m.bcc ≠ []) :
    m.send o retries = sendLoopFuel m.sender m.«to» (m.«to» ++ m.bcc) o 0 retries := by
  simp [Mail.send, h]

/-- Every `sendmail` transport call recorded by `Mail.send` passes
`self.sender.user` as envelope sender and `self.to + self.bcc` as the
delivery list. -/
theorem Mail.sendmailStep_mem (m : Mail) (o : Nat → AttemptOutcome)
    (retries : Nat) (f : String) (r : List String)
    (hmem : Event.sendmailStep f r ∈ (m.send o retries).2) :
    f = m.sender.user ∧ r = m.«to» ++ m.bcc := by
  by_cases h : m.«to» ++ m.bcc = []
  · simp [Mail.send, h] at hmem
  · rw [Mail.send_of_ne m o retries h] at hmem
    exact sendLoopFuel_sendmailStep_args m.sender m.«to» (m.«to» ++ m.bcc) o
      retries 0 f r hmem

/-! ## The claims -/

/-- C1: for a `Mail` with a nonempty effective recipient list `to ++ bcc` and
the default retry budget of 3, `send` returns `true` iff one of the first 3
attempts succeeds, never makes more than 3 attempts, and stops right after
the first success (the first success at index `k` yields exactly `k + 1`
attempts). -/
theorem send_retry_contract (m : Mail) (o : Nat → AttemptOutcome)
    (hne : m.«to» ++ m.bcc ≠ []) :
    ((m.send o 3).1 = true ↔ ∃ k, k < 3 ∧ o k = AttemptOutcome.success) ∧
    attemptCount (m.send o 3).2 ≤ 3 ∧
    (∀ k, k < 3 → o k = AttemptOutcome.success →
      (∀ j, j < k → o j ≠ AttemptOutcome.success) →
      attemptCount (m.send o 3).2 = k + 1) := by
  rw [Mail.send_of_ne m o 3 hne]
  refine ⟨?_, ?_, ?_⟩
  · have h := sendLoopFuel_true_iff m.sender m.«to» (m.«to» ++ m.bcc) o 3 0
    simpa using h
  · exact sendLoopFuel_attemptCount_le m.sender m.«to» (m.«to» ++ m.bcc) o 3 0
  · intro k hk hs hf
    exact sendLoopFuel_first_success m.sender m.«to» (m.«to» ++ m.bcc) o 3 0 k hk
      (by simpa using hs) (fun j hj => by simpa using hf j hj)

/-- C1 witness: a concrete mail and an oracle whose first attempt succeeds. -/
theorem send_retry_contract_witness :
    attemptCount (sampleMail.send sampleSuccO 3).2 ≤ 3 :=
  (send_retry_contract sampleMail sampleSuccO (by decide)).2.1

/-- C2 counterexample: constructing a `Mail` with an empty recipient sequence
(`to = []`) succeeds — `Mail.__init__` raises only when `to is None`, so an
empty sequence does not fail with the no-recipient error. -/
theorem ctor_empty_seq_succeeds :
    ctorOk (mkMail sampleSender (PyStrOrList.list []) "subject" "text" []
      PyStrOrList.none Option.none Option.none "mixed") = true := rfl

/-- C2 (amended): construction fails with `ValueError("Mail: No recipient
given")` exactly when the `to` argument is absent (`None`); every provided
`to` — a string or any list, including the empty string and the empty list —
is accepted, and construction never raises for otherwise-valid inputs. -/
theorem ctor_fails_iff_absent (sender : MailSender) («to» : PyStrOrList)
    (subject text : String) (attachments : List (String × List Nat))
    (bcc : PyStrOrList) (reply_to custom_to_header : Option String)
    (root_msg_mime_subtype : String) :
    ctorOk (mkMail sender «to» subject text attachments bcc reply_to
      custom_to_header root_msg_mime_subtype) = false ↔
      «to» = PyStrOrList.none := by
  cases «to» <;> simp [mkMail, ctorOk]

/-- C3: every attempt that fails with a transport/OS-level error at zero-based
index `i` emits, right in sequence, the failure message carrying `self.to`,
the ordinal wording for that attempt, the underlying error text and the
computed wait `i ^ 2`, followed by a sleep of exactly `i ^ 2` seconds; the
ordinal wording is "once", "twice", and then "N times", clamped to that third
form for every attempt index `≥ 2`. -/
theorem transport_error_backoff_and_message (m : Mail) (o : Nat → AttemptOutcome)
    (retries i : Nat) (err : String) (hne : m.«to» ++ m.bcc ≠ [])
    (hi : i < retries) (hfail : ∀ j, j < i → o j ≠ AttemptOutcome.success)
    (ho : o i = AttemptOutcome.osError err) :
    List.IsInfix
      [Event.attemptStart m.sender.server,
        Event.printOsFail m.«to» (ordinal i) err (i ^ 2), Event.sleep (i ^ 2)]
      (m.send o retries).2 ∧
    ordinal 0 = "once" ∧ ordinal 1 = "twice" ∧
    (∀ n, 2 ≤ n → ordinal n = toString (n + 1) ++ " times") := by
  refine ⟨?_, rfl, rfl, ?_⟩
  · rw [Mail.send_of_ne m o retries hne]
    have h := sendLoopFuel_osFail_infix m.sender m.«to» (m.«to» ++ m.bcc) o retries
      0 i err hi (fun j hj => by simpa using hfail j hj) (by simpa using ho)
    simpa using h
  · intro n hn
    have h0 : (n == 0) = false := by simp; omega
    have h1 : (n == 1) = false := by simp; omega
    simp [ordinal, h0, h1]

/-- C3 witness: first attempt fails with a connection error, wait is 0s. -/
theorem transport_error_backoff_witness :
    List.IsInfix
      [Event.attemptStart sampleMail.sender.server,
        Event.printOsFail sampleMail.«to» (ordinal 0) "connection refused" (0 ^ 2),
        Event.sleep (0 ^ 2)]
      (sampleMail.send sampleOsO 3).2 := by
  have h := transport_error_backoff_and_message sampleMail sampleOsO 3 0
    "connection refused" (by decide) (by decide)
    (fun j hj => absurd hj (by omega)) rfl
  exact h.1

/-- C4: every attempt failing with an authentication failure at zero-based
index `i` is counted as a failure and retried: the auth-failure message is
printed and the wait before the next step is `i` seconds (linear, not
quadratic); the overall result then depends only on later attempts, and when
budget remains a further attempt is actually made. -/
theorem auth_error_linear_backoff (m : Mail) (o : Nat → AttemptOutcome)
    (retries i : Nat) (hne : m.«to» ++ m.bcc ≠ []) (hi : i < retries)
    (hfail : ∀ j, j < i → o j ≠ AttemptOutcome.success)
    (ho : o i = AttemptOutcome.authError) :
    List.IsInfix
      [Event.attemptStart m.sender.server, Event.printAuthFail, Event.sleep i]
      (m.send o retries).2 ∧
    ((m.send o retries).1 = true ↔
      ∃ k, i < k ∧ k < retries ∧ o k = AttemptOutcome.success) ∧
    (i + 1 < retries → i + 2 ≤ attemptCount (m.send o retries).2) := by
  rw [Mail.send_of_ne m o retries hne]
  refine ⟨?_, ?_, ?_⟩
  · have h := sendLoopFuel_authFail_infix m.sender m.«to» (m.«to» ++ m.bcc) o retries
      0 i hi (fun j hj => by simpa using hfail j hj) (by simpa using ho)
    simpa using h
  · have h := sendLoopFuel_true_iff m.sender m.«to» (m.«to» ++ m.bcc) o retries 0
    simp only [Nat.zero_add] at h
    rw [h]
    constructor
    · rintro ⟨k, hk, hks⟩
      have hik : i < k := by
        rcases lt_trichotomy k i with h1 | h1 | h1
        · exact absurd hks (hfail k h1)
        · subst h1
          rw [ho] at hks
          cases hks
        · exact h1
      exact ⟨k, hik, hk, hks⟩
    · rintro ⟨k, _, hk, hks⟩
      exact ⟨k, hk, hks⟩
  · intro hlt
    have h := sendLoopFuel_attemptCount_ge m.sender m.«to» (m.«to» ++ m.bcc) o retries
      0 (i + 1) (by omega)
      (fun j hj => by
        simp only [Nat.zero_add]
        rcases Nat.lt_or_ge j i with hji | hji
        · exact hfail j hji
        · have hj2 : j = i := by omega
          subst hj2
          rw [ho]
          intro hc
          cases hc)
    simpa using h

/-- C4 witness: first attempt fails with an authentication failure. -/
theorem auth_error_linear_backoff_witness :
    List.IsInfix
      [Event.attemptStart sampleMail.sender.server, Event.printAuthFail,
        Event.sleep 0]
      (sampleMail.send sampleAuthO 3).2 := by
  have h := auth_error_linear_backoff sampleMail sampleAuthO 3 0 (by decide)
    (by decide) (fun j hj => absurd hj (by omega)) rfl
  exact h.1

/-- C5: when the effective recipient list `to ++ bcc` is empty at send time,
`send` performs no transport action — the entire trace is the single
no-mail-sent notice, with zero attempts — and returns `true`. -/
theorem send_empty_recipients (m : Mail) (o : Nat → AttemptOutcome)
    (retries : Nat) (h : m.«to» ++ m.bcc = []) :
    m.send o retries = (true, [Event.printNoMail]) ∧
    attemptCount (m.send o retries).2 = 0 := by
  constructor
  · simp [Mail.send, h]
  · simp [Mail.send, h, attemptCount, List.countP_cons, isStart]

/-- C5 witness: a mail whose `to` and `bcc` are both empty. -/
theorem send_empty_recipients_witness :
    emptyMail.send sampleAuthO 3 = (true, [Event.printNoMail]) :=
  (send_empty_recipients emptyMail sampleAuthO 3 (by decide)).1

/-- C6: `send` never propagates an exception: the exception-passing semantics
always returns `Except.ok` with the same value as the total function — every
transient error an attempt raises is consumed by one of the two `except`
clauses — and exhaustion surfaces only as the `false` component of the
return value, which happens only when every attempt within the budget
failed. -/
theorem send_never_throws (m : Mail) (o : Nat → AttemptOutcome) (retries : Nat) :
    m.sendE o retries = Except.ok (m.send o retries) ∧
    ((m.send o retries).1 = false →
      ∀ i, i < retries → o i ≠ AttemptOutcome.success) := by
  constructor
  · by_cases h : m.«to» ++ m.bcc = []
    · simp [Mail.send, Mail.sendE, h]
    · simp [Mail.send, Mail.sendE, h, sendLoopE_eq_ok]
  · intro hfalse i hi hs
    by_cases h : m.«to» ++ m.bcc = []
    · simp [Mail.send, h] at hfalse
    · rw [Mail.send_of_ne m o retries h] at hfalse
      have htrue := (sendLoopFuel_true_iff m.sender m.«to» (m.«to» ++ m.bcc) o
        retries 0).mpr ⟨i, hi, by simpa using hs⟩
      simp [hfalse] at htrue

/-- C6 witness: with all attempts failing authentication, the
exception-passing run still returns `Except.ok`. -/
theorem send_never_throws_witness :
    sampleMail.sendE sampleAuthO 3 = Except.ok (sampleMail.send sampleAuthO 3) :=
  (send_never_throws sampleMail sampleAuthO 3).1

/-- C7: the rendered Reply-To header of a constructed mail follows the
precedence: the message-level `reply_to` if given, else the sender's
`reply_to` if set, else the sender's display From (`from_`) — so with sender
`reply_to = "a"` and message `reply_to = "b"` the header is `"b"`, with only
the sender's `"a"` it is `"a"`, and with neither it equals the sender's
display From. ("Given"/"set" is Python truthiness: a non-empty string.) -/
theorem reply_to_precedence (sender : MailSender) («to» : PyStrOrList)
    (subject text : String) (attachments : List (String × List Nat))
    (bcc : PyStrOrList) (reply_to custom_to_header : Option String)
    (root_msg_mime_subtype : String) (mail : Mail)
    (hm : mkMail sender «to» subject text attachments bcc reply_to
      custom_to_header root_msg_mime_subtype = Except.ok mail) :
    mail.msgReplyTo =
      (if pyTruthy reply_to then reply_to
       else if pyTruthy sender.reply_to then sender.reply_to
       else sender.from_) := by
  cases «to» with
  | none => simp [mkMail] at hm
  | str s =>
    simp only [mkMail, Except.ok.injEq] at hm
    subst hm
    rfl
  | list l =>
    simp only [mkMail, Except.ok.injEq] at hm
    subst hm
    rfl

/-- C7 witness: sender `reply_to = "a"`, message `reply_to = "b"`: the header
is `"b"`. -/
theorem reply_to_precedence_witness :
    mailReplyB.msgReplyTo = Option.some "b" := by
  have h := reply_to_precedence senderReplyA (PyStrOrList.str "x@example.com")
    "" "" [] (PyStrOrList.list []) (Option.some "b") Option.none "mixed"
    mailReplyB rfl
  rw [h]
  rfl

/-- C8: the rendered To header equals the comma-joined `to` list when no
`custom_to_header` is given and equals `custom_to_header` verbatim when it is
given; in either case the delivery list passed to every transport `sendmail`
call is the full `to ++ bcc`, unaffected by the custom header. -/
theorem to_header_and_delivery_list (sender : MailSender) («to» : PyStrOrList)
    (subject text : String) (attachments : List (String × List Nat))
    (bcc : PyStrOrList) (reply_to custom_to_header : Option String)
    (root_msg_mime_subtype : String) (mail : Mail)
    (hm : mkMail sender «to» subject text attachments bcc reply_to
      custom_to_header root_msg_mime_subtype = Except.ok mail) :
    (custom_to_header = Option.none →
      mail.msgTo = String.intercalate "," mail.«to») ∧
    (∀ c, custom_to_header = Option.some c → mail.msgTo = c) ∧
    (∀ o retries f r, Event.sendmailStep f r ∈ (mail.send o retries).2 →
      r = mail.«to» ++ mail.bcc) := by
  refine ⟨?_, ?_, ?_⟩
  · intro hc
    subst hc
    cases «to» with
    | none => simp [mkMail] at hm
    | str s =>
      simp only [mkMail, Except.ok.injEq] at hm
      subst hm
      rfl
    | list l =>
      simp only [mkMail, Except.ok.injEq] at hm
      subst hm
      rfl
  · intro c hc
    subst hc
    cases «to» with
    | none => simp [mkMail] at hm
    | str s =>
      simp only [mkMail, Except.ok.injEq] at hm
      subst hm
      rfl
    | list l =>
      simp only [mkMail, Except.ok.injEq] at hm
      subst hm
      rfl
  · intro o retries f r hmem
    exact (Mail.sendmailStep_mem mail o retries f r hmem).2

/-- C8 witness: two To recipients and a custom To header: the header is the
custom string. -/
theorem to_header_and_delivery_list_witness :
    mailCustomTo.msgTo = "Team <team@example.com>" := by
  have h := to_header_and_delivery_list sampleSender
    (PyStrOrList.list ["x@example.com", "y@example.com"]) "" "" []
    (PyStrOrList.list []) Option.none (Option.some "Team <team@example.com>")
    "mixed" mailCustomTo rfl
  exact h.2.1 "Team <team@example.com>" rfl

/-- C9 counterexample: with three consecutive authentication failures and
`retries = 3`, the last recorded event is `time.sleep(2)` — a further wait
does occur after the third (final) attempt, before the loop guard is
re-checked — contradicting "no further wait or attempt occurs after the
third attempt". -/
theorem auth_retry_trailing_sleep :
    (sampleMail.send sampleAuthO 3).2 =
      [Event.attemptStart "smtp.example.com", Event.printAuthFail, Event.sleep 0,
       Event.attemptStart "smtp.example.com", Event.printAuthFail, Event.sleep 1,
       Event.attemptStart "smtp.example.com", Event.printAuthFail, Event.sleep 2] ∧
    (sampleMail.send sampleAuthO 3).2.getLast? = Option.some (Event.sleep 2) ∧
    attemptCount (sampleMail.send sampleAuthO 3).2 = 3 := by
  refine ⟨rfl, rfl, rfl⟩

/-- C9 (amended): with `retries = 3` and every attempt failing with an
authentication failure, `send` makes exactly 3 attempts and returns `false`;
the waits between attempts are 0s and 1s, and after the third failed attempt
one further wait of 2s occurs (the `except` clause sleeps before the loop
guard is re-checked), with no further attempt after it. -/
theorem auth_exhaustion_trace (m : Mail) (o : Nat → AttemptOutcome)
    (hne : m.«to» ++ m.bcc ≠ []) (hall : ∀ i, o i = AttemptOutcome.authError) :
    m.send o 3 =
      (false,
       [Event.attemptStart m.sender.server, Event.printAuthFail, Event.sleep 0,
        Event.attemptStart m.sender.server, Event.printAuthFail, Event.sleep 1,
        Event.attemptStart m.sender.server, Event.printAuthFail, Event.sleep 2]) := by
  rw [Mail.send_of_ne m o 3 hne]
  simp [sendLoopFuel, hall]

/-- C9 witness: the amended trace at a concrete mail. -/
theorem auth_exhaustion_trace_witness :
    sampleMail.send sampleAuthO 3 =
      (false,
       [Event.attemptStart sampleMail.sender.server, Event.printAuthFail,
        Event.sleep 0,
        Event.attemptStart sampleMail.sender.server, Event.printAuthFail,
        Event.sleep 1,
        Event.attemptStart sampleMail.sender.server, Event.printAuthFail,
        Event.sleep 2]) :=
  auth_exhaustion_trace sampleMail sampleAuthO (by decide) (fun _ => rfl)

/-- C10: every transport `sendmail` call made by `send` passes the sender's
login `user` as the envelope sender — even when a display From (`from_`) is
set on the sender, so the SMTP envelope-from can differ from the rendered
From header. -/
theorem envelope_from_is_user (m : Mail) (o : Nat → AttemptOutcome)
    (retries : Nat) (f : String) (r : List String)
    (hmem : Event.sendmailStep f r ∈ (m.send o retries).2) :
    f = m.sender.user :=
  (Mail.sendmailStep_mem m o retries f r hmem).1

/-- C10 witness: a successful send by `sampleMail` (whose sender has a display
From set) records a `sendmail` call whose envelope sender is the login user. -/
theorem envelope_from_is_user_witness :
    "me@example.com" = sampleMail.sender.user :=
  envelope_from_is_user sampleMail sampleSuccO 3 "me@example.com"
    ["recipient@example.com", "bcc@example.com"] (by decide)

end Sendmail
